import Mathlib

set_option maxHeartbeats 1000000

deriving instance DecidableEq for Except

/-!
Verification of the logo-resolution pipeline of this repository.

The development shallowly embeds the Python sources `finders.py`,
`logo_crawler.py` and their use of `urllib.parse` into Lean.  Strings are
handled as `List Char` in the core definitions, with `String` wrappers at the
boundary, so that every definition is executable and kernel-reducible.
Fallible Python code (`urlparse` can raise `ValueError` on unbalanced IPv6
brackets; finders and strategies can raise) is modelled with `Except String`.
-/

/-! ## Model of `urllib.parse` (CPython `Lib/urllib/parse.py`) -/

/-- Characters removed from URLs before parsing (`_UNSAFE_URL_BYTES_TO_REMOVE`). -/
def goodChar (c : Char) : Bool := !(c == '\t' || c == '\r' || c == '\n')

def stripUnsafe (l : List Char) : List Char := l.filter goodChar

def schemeChars : List Char :=
  "abcdefghijklmnopqrstuvwxyzABCDEFGHIJKLMNOPQRSTUVWXYZ0123456789+-.".data

def lowerCL (l : List Char) : List Char := l.map Char.toLower

/-- Split a char list at the first colon, returning the parts before and after. -/
def splitAtColon : List Char → Option (List Char × List Char)
  | [] => none
  | c :: rest =>
    if c = ':' then some ([], rest)
    else (splitAtColon rest).map fun p => (c :: p.1, p.2)

/-- Scheme extraction of `urlsplit`: a valid scheme is a nonempty run of
`schemeChars` starting with an ASCII letter, before the first `:`.  Returns
`(some loweredScheme, rest)` on success and `(none, url)` otherwise. -/
def splitScheme (url : List Char) : Option (List Char) × List Char :=
  match splitAtColon url with
  | none => (none, url)
  | some (pre, post) =>
    if pre ≠ [] ∧ (pre.headD ' ').isAlpha ∧ pre.all (fun c => schemeChars.contains c) then
      (some (lowerCL pre), post)
    else (none, url)

def netlocStop (c : Char) : Bool := c == '/' || c == '?' || c == '#'

/-- `_splitnetloc`: the netloc runs up to the first `/`, `?` or `#`. -/
def splitNetloc (l : List Char) : List Char × List Char :=
  (l.takeWhile (fun c => !netlocStop c), l.dropWhile (fun c => !netlocStop c))

/-- `url.split(sep, 1)`: the parts before and after the first occurrence of `sep`
(only used when `sep` is known to occur). -/
def splitFirstChar (sep : Char) (l : List Char) : List Char × List Char :=
  (l.takeWhile (fun c => !(c == sep)), (l.dropWhile (fun c => !(c == sep))).drop 1)

def bracketBad (netloc : List Char) : Bool :=
  (netloc.contains '[' && !netloc.contains ']') ||
  (netloc.contains ']' && !netloc.contains '[')

structure SplitResult where
  scheme : List Char
  netloc : List Char
  path : List Char
  query : List Char
  fragment : List Char
deriving DecidableEq, Repr

/-- `urlsplit(url, scheme)` with `allow_fragments=True`.  Raises `ValueError`
on a netloc with unbalanced square brackets. -/
def urlsplitE (url0 defaultScheme : List Char) : Except String SplitResult :=
  let url1 := stripUnsafe url0
  let d := stripUnsafe defaultScheme
  let sr := splitScheme url1
  let scheme := sr.1.getD d
  let url2 := sr.2
  let nr := if url2.take 2 = ['/', '/'] then splitNetloc (url2.drop 2) else ([], url2)
  let netloc := nr.1
  let url3 := nr.2
  if bracketBad netloc then .error "Invalid IPv6 URL"
  else
    let fr := if url3.contains '#' then splitFirstChar '#' url3 else (url3, [])
    let qr := if fr.1.contains '?' then splitFirstChar '?' fr.1 else (fr.1, [])
    .ok ⟨scheme, netloc, qr.1, qr.2, fr.2⟩

structure ParseResult where
  scheme : List Char
  netloc : List Char
  path : List Char
  params : List Char
  query : List Char
  fragment : List Char
deriving DecidableEq, Repr

def usesParams : List (List Char) :=
  ["", "ftp", "hdl", "prospero", "http", "imap", "https", "shttp", "rtsp",
   "rtspu", "sip", "sips", "mms", "sftp", "tel"].map String.data

def usesRelative : List (List Char) :=
  ["", "ftp", "http", "gopher", "nntp", "imap", "wais", "file", "https",
   "shttp", "mms", "prospero", "rtsp", "rtspu", "sftp", "svn", "svn+ssh",
   "ws", "wss"].map String.data

def usesNetloc : List (List Char) :=
  ["", "ftp", "http", "gopher", "nntp", "telnet", "imap", "wais", "file",
   "mms", "https", "shttp", "snews", "prospero", "rtsp", "rtspu", "rsync",
   "svn", "svn+ssh", "sftp", "nfs", "git", "git+ssh", "ws", "wss",
   "itms-services"].map String.data

/-- `_splitparams`: split `;params` off the last path segment. -/
def splitParams (p : List Char) : List Char × List Char :=
  if p.contains '/' then
    let tailSeg := (p.reverse.takeWhile (fun c => !(c == '/'))).reverse
    let front := p.take (p.length - tailSeg.length)
    if tailSeg.contains ';' then
      let ab := splitFirstChar ';' tailSeg
      (front ++ ab.1, ab.2)
    else (p, [])
  else splitFirstChar ';' p

/-- `urlparse(url, scheme)` with `allow_fragments=True`. -/
def urlparseE (url0 defaultScheme : List Char) : Except String ParseResult :=
  (urlsplitE url0 defaultScheme).map fun s =>
    if s.scheme ∈ usesParams ∧ s.path.contains ';' then
      let pp := splitParams s.path
      ⟨s.scheme, s.netloc, pp.1, pp.2, s.query, s.fragment⟩
    else
      ⟨s.scheme, s.netloc, s.path, [], s.query, s.fragment⟩

/-- `urlunsplit`. -/
def urlunsplitL (s : SplitResult) : List Char :=
  let u0 := s.path
  let u1 :=
    if s.netloc ≠ [] ∨ (u0 ≠ [] ∧ u0.take 2 = ['/', '/']) then
      let u' := if u0 ≠ [] ∧ u0.headD ' ' ≠ '/' then '/' :: u0 else u0
      '/' :: '/' :: s.netloc ++ u'
    else u0
  let u2 := if s.scheme ≠ [] then s.scheme ++ ':' :: u1 else u1
  let u3 := if s.query ≠ [] then u2 ++ '?' :: s.query else u2
  if s.fragment ≠ [] then u3 ++ '#' :: s.fragment else u3

/-- `urlunparse`. -/
def urlunparseL (p : ParseResult) : List Char :=
  urlunsplitL ⟨p.scheme, p.netloc,
    (if p.params ≠ [] then p.path ++ ';' :: p.params else p.path),
    p.query, p.fragment⟩

def splitOnSlashAux (acc : List Char) : List Char → List (List Char)
  | [] => [acc.reverse]
  | c :: rest =>
    if c = '/' then acc.reverse :: splitOnSlashAux [] rest
    else splitOnSlashAux (c :: acc) rest

/-- `path.split('/')`. -/
def splitOnSlash (l : List Char) : List (List Char) := splitOnSlashAux [] l

/-- `segments[1:-1] = filter(None, segments[1:-1])`: keep the first and last
segments and drop empty inner ones. -/
def sliceFilter : List (List Char) → List (List Char)
  | [] => []
  | [a] => [a]
  | a :: b :: rest =>
    a :: ((b :: rest).dropLast.filter (fun s => s ≠ [])) ++ [(b :: rest).getLastD []]

/-- Resolution of `.` and `..` segments; the accumulator holds the resolved
segments in reverse (a failed pop is ignored, matching the `IndexError: pass`). -/
def resolveSegs : List (List Char) → List (List Char) → List (List Char)
  | [], acc => acc.reverse
  | s :: rest, acc =>
    if s = ['.', '.'] then resolveSegs rest (acc.drop 1)
    else if s = ['.'] then resolveSegs rest acc
    else resolveSegs rest (s :: acc)

/-- `urljoin(base, url)` per CPython. -/
def urljoinE (base url : List Char) : Except String (List Char) :=
  if base = [] then .ok url
  else if url = [] then .ok base
  else
    match urlparseE base [] with
    | .error e => .error e
    | .ok b =>
      match urlparseE url b.scheme with
      | .error e => .error e
      | .ok r =>
        if r.scheme ≠ b.scheme ∨ r.scheme ∉ usesRelative then .ok url
        else if r.scheme ∈ usesNetloc ∧ r.netloc ≠ [] then
          .ok (urlunparseL ⟨r.scheme, r.netloc, r.path, r.params, r.query, r.fragment⟩)
        else
          let netloc := if r.scheme ∈ usesNetloc then b.netloc else r.netloc
          if r.path = [] ∧ r.params = [] then
            let query := if r.query = [] then b.query else r.query
            .ok (urlunparseL ⟨r.scheme, netloc, b.path, b.params, query, r.fragment⟩)
          else
            let baseParts0 := splitOnSlash b.path
            let baseParts :=
              if baseParts0.getLastD [] ≠ [] then baseParts0.dropLast else baseParts0
            let segments :=
              if r.path.take 1 = ['/'] then splitOnSlash r.path
              else sliceFilter (baseParts ++ splitOnSlash r.path)
            let resolved0 := resolveSegs segments []
            let resolved :=
              if segments.getLastD [] = ['.'] ∨ segments.getLastD [] = ['.', '.'] then
                resolved0 ++ [[]]
              else resolved0
            let joined := List.intercalate ['/'] resolved
            let path := if joined = [] then ['/'] else joined
            .ok (urlunparseL ⟨r.scheme, netloc, path, r.params, r.query, r.fragment⟩)

/-! ## The two `make_absolute_url` implementations -/

/-- Core of `make_absolute_url` from `finders.py`:
empty pass-through, then the protocol-relative prefix, then the netloc test. -/
def mauFindersL (base url : List Char) : Except String (List Char) :=
  if url = [] then .ok url
  else if url.take 2 = ['/', '/'] then .ok ("https:".data ++ url)
  else
    match urlparseE url [] with
    | .error e => .error e
    | .ok p => if p.netloc ≠ [] then .ok url else urljoinE base url

/-- Core of `make_absolute_url` from `logo_crawler.py`:
the netloc test guards the protocol-relative branch. -/
def mauCrawlerL (base url : List Char) : Except String (List Char) :=
  if url = [] then .ok url
  else
    match urlparseE url [] with
    | .error e => .error e
    | .ok p =>
      if p.netloc = [] then
        if url.take 2 = ['/', '/'] then .ok ("https:".data ++ url)
        else urljoinE base url
      else .ok url

namespace Finders

/-- `finders.make_absolute_url`. -/
def make_absolute_url (base_url logo_url : String) : Except String String :=
  (mauFindersL base_url.data logo_url.data).map String.mk

end Finders

namespace LogoCrawler

/-- `logo_crawler.make_absolute_url`. -/
def make_absolute_url (base_url logo_url : String) : Except String String :=
  (mauCrawlerL base_url.data logo_url.data).map String.mk

end LogoCrawler

/-! ## Model of the parsed HTML document (the BeautifulSoup collaborator)

The spec treats HTML parsing as an external collaborator contract
(`parse(text) -> document` with element/attribute/class/id querying), so the
document is modelled as a tree of elements and text nodes.  Multi-valued
attributes (`class`) are lists of tokens, as in bs4. -/

inductive AttrVal where
  | str (s : String)
  | list (l : List String)
deriving DecidableEq, Repr

inductive Node where
  | text (s : String)
  | elem (name : String) (attrs : List (String × AttrVal)) (children : List Node)
deriving Repr

abbrev Doc := List Node

def Node.nameOf : Node → String
  | .text _ => ""
  | .elem n _ _ => n

def Node.attrsOf : Node → List (String × AttrVal)
  | .text _ => []
  | .elem _ a _ => a

def Node.childrenOf : Node → List Node
  | .text _ => []
  | .elem _ _ c => c

def getAttr (n : Node) (k : String) : Option AttrVal :=
  (n.attrsOf.find? (fun kv => kv.1 == k)).map (·.2)

/-- `tag.get(k)` for a string-valued attribute. -/
def getS (n : Node) (k : String) : Option String :=
  match getAttr n k with
  | some (.str s) => some s
  | _ => none

/-- `tag.get("class", [])`. -/
def getClasses (n : Node) : List String :=
  match getAttr n "class" with
  | some (.list l) => l
  | some (.str s) => [s]
  | none => []

def joinSp (l : List String) : String := String.intercalate " " l

def lowerS (s : String) : String := String.mk (lowerCL s.data)

/-- Substring test, Python's `in` on strings. -/
def containsSubL (hay pat : List Char) : Bool :=
  match hay with
  | [] => pat.isEmpty
  | _ :: t => pat.isPrefixOf hay || containsSubL t pat

def containsSub (hay pat : String) : Bool := containsSubL hay.data pat.data

mutual
/-- Pre-order descendants of one node (bs4 iteration order). -/
def descNode : Node → List Node
  | .text _ => []
  | .elem _ _ cs => descList cs

/-- Pre-order list of all descendants of the nodes in `l`, the nodes themselves
included. -/
def descList : List Node → List Node
  | [] => []
  | c :: cs => (c :: descNode c) ++ descList cs
end

/-- `tag.find_all(...)` searches the tag's descendants. -/
def Node.descendants (n : Node) : List Node := descNode n

/-- bs4 match of a `class_` function filter: the function is tried on each
class token and then on the space-joined value; an element without a class
attribute does not match (the function receives `None`, falsy for the
lambdas used in this repository). -/
def classFnMatches (pred : String → Bool) (n : Node) : Bool :=
  match getAttr n "class" with
  | some (.list l) => l.any pred || pred (joinSp l)
  | some (.str s) => pred s
  | none => false

/-- `img.get("data-src") or img.get("src", "")`. -/
def srcOf (img : Node) : String :=
  match getS img "data-src" with
  | some d => if d ≠ "" then d else (getS img "src").getD ""
  | none => (getS img "src").getD ""

/-! ### Serialization (`str(tag)`), `urllib.parse.quote` and `base64.b64encode` -/

def renderAttrVal : AttrVal → String
  | .str s => s
  | .list l => joinSp l

def renderAttrs : List (String × AttrVal) → String
  | [] => ""
  | (k, v) :: rest => " " ++ k ++ "=\"" ++ renderAttrVal v ++ "\"" ++ renderAttrs rest

mutual
def renderNode : Node → String
  | .text s => s
  | .elem n a cs => "<" ++ n ++ renderAttrs a ++ ">" ++ renderNodes cs ++ "</" ++ n ++ ">"

def renderNodes : List Node → String
  | [] => ""
  | c :: cs => renderNode c ++ renderNodes cs
end

def isPySpace (c : Char) : Bool :=
  c == ' ' || c == '\t' || c == '\n' || c == '\r' || c == '\x0b' || c == '\x0c'

def pyWordsAux (cur : List Char) : List Char → List (List Char)
  | [] => if cur = [] then [] else [cur.reverse]
  | c :: rest =>
    if isPySpace c then
      if cur = [] then pyWordsAux [] rest else cur.reverse :: pyWordsAux [] rest
    else pyWordsAux (c :: cur) rest

/-- `s.split()` (split on whitespace runs, no empty parts). -/
def pyWords (l : List Char) : List (List Char) := pyWordsAux [] l

/-- `' '.join(s.split())`. -/
def collapseWs (s : String) : String :=
  String.mk (List.intercalate [' '] (pyWords s.data))

/-- UTF-8 bytes of a character. -/
def utf8Bytes (c : Char) : List Nat :=
  let n := c.toNat
  if n < 0x80 then [n]
  else if n < 0x800 then [0xC0 + n / 0x40, 0x80 + n % 0x40]
  else if n < 0x10000 then
    [0xE0 + n / 0x1000, 0x80 + n / 0x40 % 0x40, 0x80 + n % 0x40]
  else
    [0xF0 + n / 0x40000, 0x80 + n / 0x1000 % 0x40, 0x80 + n / 0x40 % 0x40, 0x80 + n % 0x40]

def strUtf8 (l : List Char) : List Nat := (l.map utf8Bytes).flatten

/-- Bytes left unescaped by `urllib.parse.quote` with the default `safe='/'`:
ASCII alphanumerics, `_.-~` and `/`. -/
def quoteSafeByte (b : Nat) : Bool :=
  (65 ≤ b && b ≤ 90) || (97 ≤ b && b ≤ 122) || (48 ≤ b && b ≤ 57) ||
  b == 95 || b == 46 || b == 45 || b == 126 || b == 47

def hexDigit (n : Nat) : Char := ("0123456789ABCDEF".data.drop n).headD '0'

def quoteBytes : List Nat → List Char
  | [] => []
  | b :: rest =>
    (if quoteSafeByte b then [Char.ofNat b]
     else ['%', hexDigit (b / 16), hexDigit (b % 16)]) ++ quoteBytes rest

/-- `urllib.parse.quote(s)` (default `safe='/'`). -/
def pyQuote (s : String) : String := String.mk (quoteBytes (strUtf8 s.data))

def b64Char (n : Nat) : Char :=
  (("ABCDEFGHIJKLMNOPQRSTUVWXYZabcdefghijklmnopqrstuvwxyz0123456789+/".data.drop n).headD 'A')

def b64encodeBytes : List Nat → List Char
  | [] => []
  | [a] => [b64Char (a / 4), b64Char (a % 4 * 16), '=', '=']
  | [a, b] => [b64Char (a / 4), b64Char (a % 4 * 16 + b / 16), b64Char (b % 16 * 4), '=']
  | a :: b :: c :: rest =>
    b64Char (a / 4) :: b64Char (a % 4 * 16 + b / 16) ::
      b64Char (b % 16 * 4 + c / 64) :: b64Char (c % 64) :: b64encodeBytes rest

/-- `base64.b64encode(s.encode("utf-8")).decode("utf-8")`. -/
def pyB64 (s : String) : String := String.mk (b64encodeBytes (strUtf8 s.data))

/-! ## The detectors of `finders.py` -/

/-- A finder inspects the parsed document and the base URL and returns a logo
URL or `none`; it may raise (modelled with `Except`). -/
abbrev Finder := Doc → String → Except String (Option String)

namespace Finders

def is_logo_svg (svg : Node) : Bool :=
  containsSub (lowerS (joinSp (getClasses svg))) "logo"

def create_svg_data_url (svg : Node) : String :=
  "data:image/svg+xml," ++ pyQuote (collapseWs (renderNode svg))

def process_container (container : Node) : Option String :=
  ((container.descendants.filter (fun n => n.nameOf == "svg")).findSome? fun svg =>
    if is_logo_svg svg then some (create_svg_data_url svg) else none)

/-- `finders.find_svg_logos`. -/
def find_svg_logos (doc : Doc) (_ : String) : Except String (Option String) :=
  .ok (((descList doc).filter fun n =>
      (n.nameOf == "a" || n.nameOf == "div") &&
        classFnMatches (fun x => x != "" && containsSub (lowerS x) "logo") n).findSome?
    process_container)

def find_logo_in_link (link : Node) : Option String :=
  ((link.descendants.filter (fun n => n.nameOf == "img")).findSome? fun img =>
    if containsSub (lowerS ((getS img "alt").getD "")) "logo" then
      let src := srcOf img
      if src ≠ "" then some src else none
    else none)

/-- `finders.find_navbar_brand_logos`. -/
def find_navbar_brand_logos (doc : Doc) (base_url : String) : Except String (Option String) :=
  match ((descList doc).filter fun n =>
      n.nameOf == "a" &&
        classFnMatches
          (fun x => x != "" &&
            (containsSub (lowerS x) "logo" || containsSub (lowerS x) "brand")) n).findSome?
      find_logo_in_link with
  | none => .ok none
  | some src => (make_absolute_url base_url src).map some

def is_logo_img (img : Node) : Bool :=
  let src := srcOf img
  src != "" &&
    (containsSub (lowerS src) "logo" ||
      containsSub (lowerS (joinSp (getClasses img))) "logo")

/-- `finders.find_explicit_logos`: matches `logo` in the source URL or the
class attribute (not the id). -/
def find_explicit_logos (doc : Doc) (base_url : String) : Except String (Option String) :=
  match ((descList doc).filter (fun n => n.nameOf == "img")).find? is_logo_img with
  | none => .ok none
  | some img => (make_absolute_url base_url (srcOf img)).map some

def isOgImageMeta (n : Node) : Bool :=
  n.nameOf == "meta" && getS n "property" == some "og:image"

/-- `finders.find_in_meta_tags`: only the `og:image` property is inspected and
the absolutized URL must have an `http`/`https` scheme. -/
def find_in_meta_tags (doc : Doc) (base_url : String) : Except String (Option String) :=
  match (descList doc).find? isOgImageMeta with
  | none => .ok none
  | some tag =>
    match getS tag "content" with
    | none => .ok none
    | some c =>
      if c = "" then .ok none
      else
        match make_absolute_url base_url c with
        | .error e => .error e
        | .ok url =>
          match urlparseE url.data [] with
          | .error e => .error e
          | .ok p =>
            if p.scheme = "http".data ∨ p.scheme = "https".data then .ok (some url)
            else .ok none

/-- CSS attribute-substring selector `tag[attr*=sub]` as used by
`find_css_background_logos` (for `class` the tokens are space-joined). -/
def selMatches (tag attr sub : String) (n : Node) : Bool :=
  n.nameOf == tag &&
    (match attr, getAttr n "class", getS n "id" with
     | "class", some (.list l), _ => containsSub (joinSp l) sub
     | "class", some (.str s), _ => containsSub s sub
     | "id", _, some i => containsSub i sub
     | _, _, _ => false)

def cssLogoSelectors : List (String × String) :=
  [("div", "class"), ("a", "class"), ("span", "class"), ("div", "id"), ("a", "id")]

/-- `finders.find_css_background_logos`: returns the fixed sentinel when an
element with a logo/brand class or id matches one of the selectors. -/
def find_css_background_logos (doc : Doc) (_ : String) : Except String (Option String) :=
  .ok (cssLogoSelectors.findSome? fun sel =>
    (((descList doc).filter (selMatches sel.1 sel.2 "logo")).findSome? fun element =>
      let elementClass := lowerS (joinSp (getClasses element))
      let elementId := lowerS ((getS element "id").getD "")
      if containsSub elementClass "logo" || containsSub elementId "logo" ||
          containsSub elementClass "brand" || containsSub elementId "brand" then
        some "css_background_logo_found"
      else none))

/-- `finders.ALL_FINDERS`, in priority order. -/
def ALL_FINDERS : List Finder :=
  [find_svg_logos, find_navbar_brand_logos, find_explicit_logos,
   find_in_meta_tags, find_css_background_logos]

end Finders

/-! ## The resolver of `logo_crawler.py` -/

namespace LogoCrawler

/-- `str(value)` of a bs4 attribute value, as seen by
`' '.join(map(str, link.attrs.values()))` (a multi-valued attribute prints as
a Python list literal). -/
def pyStrAttr : AttrVal → String
  | .str s => s
  | .list l => "[" ++ String.intercalate ", " (l.map fun s => "'" ++ s ++ "'") ++ "]"

def reLogoIconBrand (s : String) : Bool :=
  containsSub (lowerS s) "logo" || containsSub (lowerS s) "icon" ||
    containsSub (lowerS s) "brand"

/-- The body of the link loop of `find_inline_svg_logo`: on a link whose
attribute values match the `logo|icon|brand` pattern, serialize its first
descendant svg (with `class`, `style`, `aria-hidden` and `data-testid`
stripped) as a base64 `data:` URL. -/
def inlineSvgOfLink (link : Node) : Option String :=
  if reLogoIconBrand (joinSp (link.attrsOf.map fun kv => pyStrAttr kv.2)) then
    match link.descendants.find? (fun n => n.nameOf == "svg") with
    | some svg =>
      match svg with
      | .text _ => none
      | .elem n a cs =>
        let svgStripped : Node := .elem n
          (a.filter fun kv =>
            kv.1 ∉ (["class", "style", "aria-hidden", "data-testid"] : List String)) cs
        some ("data:image/svg+xml;base64," ++ pyB64 (renderNode svgStripped))
    | none => none
  else none

/-- `logo_crawler.find_inline_svg_logo`: the single finder enabled in
`logo_crawler.main`. -/
def find_inline_svg_logo (doc : Doc) (_ : String) : Except String (Option String) :=
  .ok (((descList doc).filter (fun n => n.nameOf == "a")).findSome? inlineSvgOfLink)

/-- The outcome tuple `(success, content, final_url)` of a fetch strategy. -/
structure FetchOk where
  success : Bool
  content : Option String
  finalUrl : Option String

/-- A fetch strategy; raising is modelled with `Except`. -/
abbrev Strategy := String → Except String FetchOk

/-- Python truthiness of an optional string. -/
def truthyOS : Option String → Bool
  | none => false
  | some s => s != ""

/-- `logo_crawler.find_first_logo`: first truthy finder result; a raising
finder propagates. -/
def find_first_logo (doc : Doc) (final_url : String) : List Finder → Except String (Option String)
  | [] => .ok none
  | f :: fs =>
    match f doc final_url with
    | .error e => .error e
    | .ok r => if truthyOS r then .ok r else find_first_logo doc final_url fs

/-- The strategy loop of `get_logo_with_strategies`.  The accumulator models
the Python local `logo_url`: `none` when still unbound (so that reading it
raises `NameError`, which the blanket `except` absorbs), `some v` once
assigned. -/
def strategiesLoop (parse : String → Doc) (url : String) (finders : List Finder) :
    Option (Option String) → List (String × Strategy) → String
  | _, [] => "request_failed"
  | logoVar, (_, strategy_func) :: rest =>
    match strategy_func url with
    | .error _ => strategiesLoop parse url finders logoVar rest
    | .ok out =>
      if out.success && truthyOS out.content then
        match find_first_logo (parse (out.content.getD "")) ((out.finalUrl).getD "") finders with
        | .error _ => strategiesLoop parse url finders logoVar rest
        | .ok v =>
          match v with
          | some s => if s ≠ "" then s else strategiesLoop parse url finders (some v) rest
          | none => strategiesLoop parse url finders (some v) rest
      else
        match logoVar with
        | none => strategiesLoop parse url finders none rest
        | some v =>
          match v with
          | some s => if s ≠ "" then s else strategiesLoop parse url finders logoVar rest
          | none => strategiesLoop parse url finders logoVar rest

/-- `logo_crawler.get_logo_with_strategies`.  `parse` is the BeautifulSoup
collaborator; a strategy's `final_url` of `None` is passed on as `""`, which
every finder in this repository treats identically (`urljoin` returns its
second argument when the base is falsy). -/
def get_logo_with_strategies (parse : String → Doc) (url : String)
    (strategies : List (String × Strategy)) (finders : List Finder) : String :=
  strategiesLoop parse url finders none strategies

/-- Python `str.strip()` whitespace. -/
def pyStripL (l : List Char) : List Char :=
  ((l.dropWhile isPySpace).reverse.dropWhile isPySpace).reverse

def pyStrip (s : String) : String := String.mk (pyStripL s.data)

/-- The three candidate URLs built in `get_logo_for_domain`, in priority
order (the domain is already stripped at the call site). -/
def candidate_urls (domain : String) : List String :=
  ["https://" ++ domain, "https://about." ++ domain, "https://" ++ domain ++ "/about"]

/-- The candidate-URL loop of `get_logo_for_domain`. -/
def domainLoop (parse : String → Doc) (strategies : List (String × Strategy))
    (finders : List Finder) : List String → String
  | [] => "logo_not_found"
  | url :: rest =>
    let result := get_logo_with_strategies parse url strategies finders
    if result != "" && !(result == "logo_not_found" || result == "request_failed") then result
    else domainLoop parse strategies finders rest

/-- `logo_crawler.get_logo_for_domain`. -/
def get_logo_for_domain (parse : String → Doc) (domain : String)
    (strategies : List (String × Strategy)) (finders : List Finder) : String :=
  domainLoop parse strategies finders (candidate_urls (pyStrip domain))

/-- Specification-level description of one strategy attempt on one URL: the
detector-chain result when the strategy succeeds with non-empty content and
the chain returns a truthy URL without raising, `none` otherwise. -/
def strategyResult (parse : String → Doc) (url : String) (finders : List Finder)
    (p : String × Strategy) : Option String :=
  match p.2 url with
  | .error _ => none
  | .ok out =>
    if out.success && truthyOS out.content then
      match find_first_logo (parse (out.content.getD "")) ((out.finalUrl).getD "") finders with
      | .ok (some s) => if s ≠ "" then some s else none
      | _ => none
    else none

/-- Specification-level resolution of one candidate URL: the first strategy in
priority order whose attempt yields a logo. -/
def firstStrategyLogo (parse : String → Doc) (url : String) (finders : List Finder) :
    List (String × Strategy) → Option String
  | [] => none
  | p :: rest =>
    match strategyResult parse url finders p with
    | some s => some s
    | none => firstStrategyLogo parse url finders rest

/-- The finder list enabled in `logo_crawler.main`. -/
def mainFinders : List Finder := [find_inline_svg_logo]

end LogoCrawler

/-! ## The connectivity prechecker (spec §4.2/§4.6) -/

/-- Modelled from the spec: the Connectivity Prechecker of §4.2 is not present
in `src/` (`get_logo_for_domain` starts directly with the candidate URLs and
`not_working_site` appears nowhere in the crawler).  Per §4.2, the precheck
classifies a probe of `https://{domain}` as a DNS name-resolution failure,
another connection error, or success. -/
inductive PrecheckResult where
  | dnsFailure
  | otherFailure
  | reachable

/-- Modelled from the spec: §4.6 step 1 — run the Prechecker; on a DNS failure
terminate with `not_working_site`, otherwise run the full pipeline. -/
def process (parse : String → Doc) (precheck : String → PrecheckResult) (domain : String)
    (strategies : List (String × LogoCrawler.Strategy)) (finders : List Finder) : String :=
  match precheck domain with
  | .dnsFailure => "not_working_site"
  | _ => LogoCrawler.get_logo_for_domain parse domain strategies finders

/-! ## Concrete documents and strategies used to settle the claims -/

namespace Examples

/-- A document matched by both the SVG detector and the meta-tag detector. -/
def docSvgMeta : Doc :=
  [.elem "div" [("class", .list ["logo"])] [.elem "svg" [("class", .list ["logo"])] []],
   .elem "meta" [("property", .str "og:image"), ("content", .str "https://x.com/og.png")] []]

/-- A document with no logo-like markup at all. -/
def docNoLogo : Doc := [.elem "p" [] [.text "hello"]]

/-- A document whose only logo marker is an image class attribute. -/
def docClassLogo : Doc :=
  [.elem "img" [("class", .list ["logo"]), ("src", .str "/x.png")] []]

/-- A document whose only logo marker is the image id attribute `logo`. -/
def docIdLogo : Doc := [.elem "img" [("id", .str "logo"), ("src", .str "/x.png")] []]

/-- A document with a `twitter:image` meta tag but no `og:image`. -/
def docTwitterMeta : Doc :=
  [.elem "meta" [("property", .str "twitter:image"), ("content", .str "https://x.com/t.png")] []]

/-- A strategy that succeeds with content `"pa"`. -/
def stratAOk : LogoCrawler.Strategy := fun _ => .ok ⟨true, some "pa", some "https://x.com"⟩

/-- A strategy that succeeds with content `"pb"`. -/
def stratBOk : LogoCrawler.Strategy := fun _ => .ok ⟨true, some "pb", some "https://x.com"⟩

/-- A strategy that raises (a simulated transport error). -/
def stratRaise : LogoCrawler.Strategy := fun _ => .error "ConnectError"

/-- A strategy that reports failure on every URL (no fetch ever succeeds). -/
def stratNever : LogoCrawler.Strategy := fun _ => .ok ⟨false, none, none⟩

/-- A parse collaborator mapping strategy A's content to the logo-free page
and strategy B's content to the class-logo page. -/
def parseAB : String → Doc := fun c => if c = "pa" then docNoLogo else docClassLogo

end Examples

/-- Shape of the tail following the authority in a rebuilt URL: either nothing
or a `/`, `?` or `#` part, so netloc extraction stops exactly at its start. -/
def tailOK (tail : List Char) : Prop :=
  tail = [] ∨ ∃ c rest, tail = c :: rest ∧ netlocStop c = true

/-! # Theorems -/

/-- The strategy loop (with its `logo_url` binding modelled explicitly) agrees
with the clean first-match semantics whenever the tracked variable is unbound
or holds a falsy value — the only states it can reach. -/
theorem strategiesLoop_eq_firstStrategyLogo (parse : String → Doc) (url : String)
    (finders : List Finder) :
    ∀ (strategies : List (String × LogoCrawler.Strategy)) (logoVar : Option (Option String)),
      (logoVar = none ∨ ∃ v, logoVar = some v ∧ LogoCrawler.truthyOS v = false) →
      LogoCrawler.strategiesLoop parse url finders logoVar strategies =
        (LogoCrawler.firstStrategyLogo parse url finders strategies).getD "request_failed" := by
  intro strategies
  induction strategies with
  | nil => intro logoVar _; rfl
  | cons p rest ih =>
    intro logoVar hinv
    obtain ⟨name, strategy_func⟩ := p
    simp only [LogoCrawler.strategiesLoop, LogoCrawler.firstStrategyLogo,
      LogoCrawler.strategyResult]
    cases hcall : strategy_func url with
    | error e => exact ih logoVar hinv
    | ok out =>
      simp only []
      by_cases hsc : (out.success && LogoCrawler.truthyOS out.content) = true
      · simp only [hsc, if_true]
        cases hff : LogoCrawler.find_first_logo (parse (out.content.getD ""))
            (out.finalUrl.getD "") finders with
        | error e => exact ih logoVar hinv
        | ok v =>
          cases v with
          | none => exact ih (some none) (Or.inr ⟨none, rfl, rfl⟩)
          | some s =>
            by_cases hs : s = ""
            · subst hs
              simp only [ne_eq, not_true_eq_false, if_false, reduceIte]
              exact ih (some (some "")) (Or.inr ⟨some "", rfl, by rfl⟩)
            · simp [hs]
      · simp only [Bool.not_eq_true] at hsc
        simp only [hsc, Bool.false_eq_true, if_false]
        rcases hinv with hv | ⟨v, hv, htr⟩
        · subst hv
          exact ih none (Or.inl rfl)
        · subst hv
          cases v with
          | none => exact ih (some none) (Or.inr ⟨none, rfl, rfl⟩)
          | some s =>
            have hs : s = "" := by
              simpa [LogoCrawler.truthyOS] using htr
            subst hs
            simp only [ne_eq, not_true_eq_false, if_false, reduceIte]
            exact ih (some (some "")) (Or.inr ⟨some "", rfl, by rfl⟩)

/-- C1: a domain whose connectivity precheck fails with a DNS name-resolution
error resolves to `not_working_site`, and the result does not depend on the
parser, the strategies or the finders — none of them is invoked. -/
theorem c1_dns_short_circuit :
    ∀ (precheck : String → PrecheckResult) (domain : String),
      precheck domain = .dnsFailure →
      ∀ (parse : String → Doc) (strategies : List (String × LogoCrawler.Strategy))
        (finders : List Finder),
        process parse precheck domain strategies finders = "not_working_site" := by
  intro pre d h parse s f
  unfold process
  rw [h]

theorem c1_dns_short_circuit_witness :
    (fun _ : String => PrecheckResult.dnsFailure) "dead.example" = .dnsFailure ∧
    process (fun _ => []) (fun _ => .dnsFailure) "dead.example"
      [("s", Examples.stratNever)] Finders.ALL_FINDERS = "not_working_site" :=
  ⟨rfl, c1_dns_short_circuit _ _ rfl _ _ _⟩

/-- C2 counterexample: with a strategy that never succeeds (no fetch ever
succeeds on any of the three candidate URLs), the claim requires
`request_failed`, but `get_logo_for_domain` returns `logo_not_found`: its
candidate loop treats the per-URL `request_failed` as non-terminal and falls
through to `logo_not_found`. -/
theorem c2_exhaustion_counterexample :
    LogoCrawler.get_logo_for_domain (fun _ => []) "example.com"
        [("s", Examples.stratNever)] Finders.ALL_FINDERS = "logo_not_found" ∧
    LogoCrawler.get_logo_for_domain (fun _ => []) "example.com"
        [("s", Examples.stratNever)] Finders.ALL_FINDERS ≠ "request_failed" := by
  decide

/-- C2 amended: if no candidate URL yields a detector result (each per-URL
resolution reports `request_failed`), the resolver returns `logo_not_found`
regardless of whether any fetch succeeded; `request_failed` is produced per
candidate URL by `get_logo_with_strategies` but never escapes
`get_logo_for_domain`. -/
theorem c2_exhaustion_amended :
    ∀ (parse : String → Doc) (domain : String)
      (strategies : List (String × LogoCrawler.Strategy)) (finders : List Finder),
      (∀ u ∈ LogoCrawler.candidate_urls (LogoCrawler.pyStrip domain),
        LogoCrawler.get_logo_with_strategies parse u strategies finders = "request_failed") →
      LogoCrawler.get_logo_for_domain parse domain strategies finders = "logo_not_found" := by
  intro parse d s f h
  have h1 := h ("https://" ++ LogoCrawler.pyStrip d) (by simp [LogoCrawler.candidate_urls])
  have h2 := h ("https://about." ++ LogoCrawler.pyStrip d) (by simp [LogoCrawler.candidate_urls])
  have h3 := h ("https://" ++ LogoCrawler.pyStrip d ++ "/about")
    (by simp [LogoCrawler.candidate_urls])
  simp [LogoCrawler.get_logo_for_domain, LogoCrawler.candidate_urls, LogoCrawler.domainLoop,
    h1, h2, h3]

theorem c2_exhaustion_amended_witness :
    (∀ u ∈ LogoCrawler.candidate_urls (LogoCrawler.pyStrip "example.com"),
      LogoCrawler.get_logo_with_strategies (fun _ => []) u
        [("s", Examples.stratNever)] Finders.ALL_FINDERS = "request_failed") ∧
    LogoCrawler.get_logo_for_domain (fun _ => []) "example.com"
      [("s", Examples.stratNever)] Finders.ALL_FINDERS = "logo_not_found" :=
  ⟨by decide, c2_exhaustion_amended _ _ _ _ (by decide)⟩

/-- C4 counterexample, two scenarios.  First: strategy A succeeds with
content whose detector chain yields nothing and strategy B succeeds with a
matching page; under the claim only A's content would be handed to the
detector chain, yet the resolver returns the logo found in B's content.
Second: the claim's own example — A fails with a transport error and B
succeeds with a page whose image carries `id="logo"` (and no `logo` in src or
class); the claim requires that image's absolutized source, but the detector
chain of `finders.py` ignores the id attribute and the resolver reports
`request_failed`. -/
theorem c4_strategy_fallback_counterexample :
    (LogoCrawler.get_logo_with_strategies Examples.parseAB "https://x.com"
        [("A", Examples.stratAOk), ("B", Examples.stratBOk)] Finders.ALL_FINDERS =
          "https://x.com/x.png" ∧
      LogoCrawler.find_first_logo Examples.docNoLogo "https://x.com" Finders.ALL_FINDERS =
        .ok none) ∧
    (LogoCrawler.get_logo_with_strategies (fun _ => Examples.docIdLogo) "https://x.com"
        [("A", Examples.stratRaise), ("B", Examples.stratBOk)] Finders.ALL_FINDERS =
          "request_failed" ∧
      LogoCrawler.find_first_logo Examples.docIdLogo "https://x.com" Finders.ALL_FINDERS =
        .ok none) := by
  decide

/-- C4 amended: strategies are tried in priority order and the resolver
returns the result of the first strategy that succeeds with non-empty content
and whose content yields a (truthy) detector result — a later strategy is
still tried when an earlier success produces no detector match.  In
particular, when strategy A raises a transport error and strategy B succeeds
with markup whose image is marked `class="logo"`, the chain runs on B's
content and returns that image's absolutized source. -/
theorem c4_strategy_fallback_amended :
    (∀ (parse : String → Doc) (url : String)
        (strategies : List (String × LogoCrawler.Strategy)) (finders : List Finder),
      LogoCrawler.get_logo_with_strategies parse url strategies finders =
        (LogoCrawler.firstStrategyLogo parse url finders strategies).getD "request_failed") ∧
    LogoCrawler.get_logo_with_strategies (fun _ => Examples.docClassLogo) "https://x.com"
      [("A", Examples.stratRaise), ("B", Examples.stratBOk)] Finders.ALL_FINDERS =
        "https://x.com/x.png" := by
  constructor
  · intro parse url strategies finders
    exact strategiesLoop_eq_firstStrategyLogo parse url finders strategies none (Or.inl rfl)
  · decide

/-- C5: the detector chain is evaluated in order and the first detector
returning a truthy (non-absent) value determines the result — the conclusion
does not depend on the detectors after it.  In particular, on a document
matched by both the SVG-logo detector and the meta-tag detector, the full
chain returns the SVG detector's data URL even though the meta-tag detector
would return the `og:image` URL. -/
theorem c5_detector_priority :
    (∀ (doc : Doc) (base : String) (fs₁ : List Finder) (f : Finder) (fs₂ : List Finder)
        (s : String),
      (∀ g ∈ fs₁, ∃ r, g doc base = .ok r ∧ LogoCrawler.truthyOS r = false) →
      f doc base = .ok (some s) → s ≠ "" →
      LogoCrawler.find_first_logo doc base (fs₁ ++ f :: fs₂) = .ok (some s)) ∧
    (LogoCrawler.find_first_logo Examples.docSvgMeta "https://x.com" Finders.ALL_FINDERS =
        .ok (some "data:image/svg+xml,%3Csvg%20class%3D%22logo%22%3E%3C/svg%3E") ∧
      Finders.find_svg_logos Examples.docSvgMeta "https://x.com" =
        .ok (some "data:image/svg+xml,%3Csvg%20class%3D%22logo%22%3E%3C/svg%3E") ∧
      Finders.find_in_meta_tags Examples.docSvgMeta "https://x.com" =
        .ok (some "https://x.com/og.png")) := by
  constructor
  · intro doc base fs₁ f fs₂ s hpre hf hs
    induction fs₁ with
    | nil =>
      simp only [List.nil_append, LogoCrawler.find_first_logo, hf]
      simp [LogoCrawler.truthyOS, hs]
    | cons g gs ih =>
      obtain ⟨r, hg, hr⟩ := hpre g (List.mem_cons_self g gs)
      simp only [List.cons_append, LogoCrawler.find_first_logo, hg, hr]
      exact ih fun g' hg' => hpre g' (List.mem_cons_of_mem _ hg')
  · decide

theorem c5_detector_priority_witness :
    LogoCrawler.find_first_logo Examples.docSvgMeta "https://x.com"
        ([] ++ Finders.find_svg_logos ::
          [Finders.find_navbar_brand_logos, Finders.find_explicit_logos,
           Finders.find_in_meta_tags, Finders.find_css_background_logos]) =
      .ok (some "data:image/svg+xml,%3Csvg%20class%3D%22logo%22%3E%3C/svg%3E") :=
  c5_detector_priority.1 Examples.docSvgMeta "https://x.com" [] _ _ _
    (by simp) (by decide) (by decide)

/-- C6: candidate URL generation is pure and deterministic: after trimming,
the resolver consults exactly the three URLs `https://{d}`,
`https://about.{d}`, `https://{d}/about` in that order, and on
`"example.com"` they are the three expected strings. -/
theorem c6_candidate_urls :
    (∀ (domain : String) (parse : String → Doc)
        (strategies : List (String × LogoCrawler.Strategy)) (finders : List Finder),
      LogoCrawler.get_logo_for_domain parse domain strategies finders =
        LogoCrawler.domainLoop parse strategies finders
          ["https://" ++ LogoCrawler.pyStrip domain,
           "https://about." ++ LogoCrawler.pyStrip domain,
           "https://" ++ LogoCrawler.pyStrip domain ++ "/about"]) ∧
    LogoCrawler.candidate_urls (LogoCrawler.pyStrip "example.com") =
      ["https://example.com", "https://about.example.com", "https://example.com/about"] :=
  ⟨fun _ _ _ _ => rfl, by decide⟩

/-- C7: the claim matches `finders.make_absolute_url` and the comment inside
`logo_crawler.make_absolute_url`, but the latter tests the parsed netloc
before its protocol-relative branch, so a protocol-relative URL with a
network location is returned unchanged instead of being prefixed with
`https:` — the code contradicts its own comment. -/
theorem c7_protocol_relative_eval :
    LogoCrawler.make_absolute_url "https://x.com" "//cdn.y.com/logo.png" =
      .ok "//cdn.y.com/logo.png" ∧
    Finders.make_absolute_url "https://x.com" "//cdn.y.com/logo.png" =
      .ok "https://cdn.y.com/logo.png" := by
  decide

/-- C8 counterexample: absolutization is not idempotent.  For the base
`https://x.com` and the degenerate protocol-relative input `//`, one
application yields `https://` (empty authority), and a second application
resolves it against the base to `https://x.com`. -/
theorem c8_idempotence_counterexample :
    Finders.make_absolute_url "https://x.com" "//" = .ok "https://" ∧
    Finders.make_absolute_url "https://x.com" "https://" = .ok "https://x.com" ∧
    (Except.ok "https://x.com" : Except String String) ≠ .ok "https://" := by
  decide

/-- C10 counterexample: the two `make_absolute_url` implementations disagree
on protocol-relative URLs carrying a network location. -/
theorem c10_equivalence_counterexample :
    Finders.make_absolute_url "https://x.com" "//cdn.y.com/logo.png" ≠
      LogoCrawler.make_absolute_url "https://x.com" "//cdn.y.com/logo.png" := by
  decide

/-- C10 amended: the two implementations agree on every input except
protocol-relative URLs whose parse has a network location (or raises):
`finders.py` prefixes those with `https:` while `logo_crawler.py` returns
them unchanged.  On inputs that do not start with `//` — or start with `//`
but parse with an empty netloc — the two compute the same function. -/
theorem c10_equivalence_amended :
    ∀ (base url : String),
      (url.data.take 2 = ['/', '/'] →
        ∃ p, urlparseE url.data [] = .ok p ∧ p.netloc = []) →
      Finders.make_absolute_url base url = LogoCrawler.make_absolute_url base url := by
  intro base url h
  unfold Finders.make_absolute_url LogoCrawler.make_absolute_url mauFindersL mauCrawlerL
  by_cases he : url.data = []
  · simp [he]
  · by_cases hpp : url.data.take 2 = ['/', '/']
    · obtain ⟨p, hp, hnet⟩ := h hpp
      simp [he, hpp, hp, hnet]
    · simp only [he, hpp, if_false, reduceIte]
      cases hp : urlparseE url.data [] with
      | error e => simp
      | ok p =>
        by_cases hnet : p.netloc = []
        · simp [hnet, hpp]
        · simp [hnet]

theorem c10_equivalence_amended_witness :
    Finders.make_absolute_url "https://x.com" "//" =
      LogoCrawler.make_absolute_url "https://x.com" "//" :=
  c10_equivalence_amended "https://x.com" "//"
    (fun _ => ⟨⟨[], [], [], [], [], []⟩, by decide, rfl⟩)

/-- C9: the meta-tag detector inspects only `og:image` meta tags — on a
document containing none of them (whatever other meta tags it holds) it
returns `none` — and any URL it does return parses with scheme `http` or
`https`. -/
theorem c9_meta_tag_detector :
    ∀ (doc : Doc) (base : String),
      (((descList doc).all fun n => !Finders.isOgImageMeta n) = true →
        Finders.find_in_meta_tags doc base = .ok none) ∧
      (∀ r, Finders.find_in_meta_tags doc base = .ok (some r) →
        ∃ p, urlparseE r.data [] = .ok p ∧
          (p.scheme = "http".data ∨ p.scheme = "https".data)) := by
  intro doc base
  constructor
  · intro hall
    have hnone : (descList doc).find? Finders.isOgImageMeta = none := by
      rw [List.find?_eq_none]
      intro x hx
      have hx' := List.all_eq_true.mp hall x hx
      simp only [Bool.not_eq_true'] at hx'
      simp [hx']
    unfold Finders.find_in_meta_tags
    rw [hnone]
  · intro r hr
    unfold Finders.find_in_meta_tags at hr
    split at hr
    · simp at hr
    · split at hr
      · simp at hr
      · split at hr
        · simp at hr
        · split at hr
          · simp at hr
          · split at hr
            · simp at hr
            · split at hr
              · rename_i p hp hs
                simp only [Except.ok.injEq, Option.some.injEq] at hr
                subst hr
                exact ⟨p, hp, hs⟩
              · simp at hr

/-- Any result of `findSome?` satisfies any property satisfied by all values
its function can produce. -/
theorem findSome?_shape {α β : Type} (f : α → Option β) (P : β → Prop)
    (hf : ∀ a b, f a = some b → P b) (l : List α) :
    l.findSome? f = none ∨ ∃ b, l.findSome? f = some b ∧ P b := by
  cases h : l.findSome? f with
  | none => exact Or.inl rfl
  | some b =>
    obtain ⟨a, _, ha⟩ := List.exists_of_findSome?_eq_some h
    exact Or.inr ⟨b, rfl, hf a b ha⟩

theorem dataUrl_ne (t : String) :
    ("data:image/svg+xml;base64," ++ t) ≠ "" ∧
    ("data:image/svg+xml;base64," ++ t) ≠ "logo_not_found" ∧
    ("data:image/svg+xml;base64," ++ t) ≠ "request_failed" := by
  have h26 : ("data:image/svg+xml;base64," : String).length = 26 := rfl
  refine ⟨fun h => ?_, fun h => ?_, fun h => ?_⟩
  · have hlen := congrArg String.length h
    rw [String.length_append, h26] at hlen
    have h0 : ("" : String).length = 0 := rfl
    rw [h0] at hlen
    omega
  · have hlen := congrArg String.length h
    rw [String.length_append, h26] at hlen
    have h0 : ("logo_not_found" : String).length = 14 := rfl
    rw [h0] at hlen
    omega
  · have hlen := congrArg String.length h
    rw [String.length_append, h26] at hlen
    have h0 : ("request_failed" : String).length = 14 := rfl
    rw [h0] at hlen
    omega

theorem c9_meta_tag_detector_witness :
    ((descList Examples.docTwitterMeta).all fun n => !Finders.isOgImageMeta n) = true ∧
    Finders.find_in_meta_tags Examples.docTwitterMeta "https://x.com" = .ok none ∧
    Finders.find_in_meta_tags Examples.docSvgMeta "https://x.com" =
      .ok (some "https://x.com/og.png") ∧
    ∃ p, urlparseE ("https://x.com/og.png" : String).data [] = .ok p ∧
      (p.scheme = "http".data ∨ p.scheme = "https".data) :=
  ⟨by decide,
   (c9_meta_tag_detector Examples.docTwitterMeta "https://x.com").1 (by decide),
   by decide,
   (c9_meta_tag_detector Examples.docSvgMeta "https://x.com").2 _ (by decide)⟩

/-- Every value produced by the link loop is a base64 `data:` URL. -/
theorem inlineSvgOfLink_shape (a : Node) (b : String)
    (hab : LogoCrawler.inlineSvgOfLink a = some b) :
    ∃ t, b = "data:image/svg+xml;base64," ++ t := by
  unfold LogoCrawler.inlineSvgOfLink at hab
  split at hab
  · split at hab
    · split at hab
      · simp at hab
      · simp only [Option.some.injEq] at hab
        exact ⟨_, hab.symm⟩
    · simp at hab
  · simp at hab

/-- `find_inline_svg_logo` never raises and returns nothing or a base64
`data:` URL. -/
theorem find_inline_svg_logo_shape (doc : Doc) (base : String) :
    LogoCrawler.find_inline_svg_logo doc base = .ok none ∨
    ∃ t, LogoCrawler.find_inline_svg_logo doc base =
      .ok (some ("data:image/svg+xml;base64," ++ t)) := by
  unfold LogoCrawler.find_inline_svg_logo
  rcases findSome?_shape LogoCrawler.inlineSvgOfLink
      (fun b => ∃ t, b = "data:image/svg+xml;base64," ++ t)
      (fun a b hab => inlineSvgOfLink_shape a b hab)
      ((descList doc).filter fun n => n.nameOf == "a") with h | ⟨b, hb, t, ht⟩
  · rw [h]
    exact Or.inl rfl
  · rw [hb, ht]
    exact Or.inr ⟨t, rfl⟩

/-- The detector chain of `main` returns nothing or a base64 `data:` URL. -/
theorem find_first_logo_mainFinders_shape (doc : Doc) (base : String) :
    LogoCrawler.find_first_logo doc base LogoCrawler.mainFinders = .ok none ∨
    ∃ t, LogoCrawler.find_first_logo doc base LogoCrawler.mainFinders =
      .ok (some ("data:image/svg+xml;base64," ++ t)) := by
  rcases find_inline_svg_logo_shape doc base with h | ⟨t, h⟩
  · left
    simp [LogoCrawler.mainFinders, LogoCrawler.find_first_logo, h, LogoCrawler.truthyOS]
  · right
    refine ⟨t, ?_⟩
    have hne : (("data:image/svg+xml;base64," ++ t) == "") = false :=
      beq_eq_false_iff_ne.mpr (dataUrl_ne t).1
    simp only [LogoCrawler.mainFinders, LogoCrawler.find_first_logo, h,
      LogoCrawler.truthyOS, bne, hne, Bool.not_false, if_true]

theorem strategyResult_mainFinders_shape (parse : String → Doc) (url : String)
    (p : String × LogoCrawler.Strategy) (s : String)
    (h : LogoCrawler.strategyResult parse url LogoCrawler.mainFinders p = some s) :
    ∃ t, s = "data:image/svg+xml;base64," ++ t := by
  unfold LogoCrawler.strategyResult at h
  split at h
  · simp at h
  · rename_i out hout
    split at h
    · rcases find_first_logo_mainFinders_shape (parse (out.content.getD ""))
          (out.finalUrl.getD "") with hml | ⟨t, hml⟩
      · rw [hml] at h
        simp at h
      · rw [hml] at h
        dsimp only at h
        have hne := (dataUrl_ne t).1
        rw [if_pos hne] at h
        simp only [Option.some.injEq] at h
        exact ⟨t, h.symm⟩
    · simp at h

theorem firstStrategyLogo_mainFinders_shape (parse : String → Doc) (url : String) :
    ∀ (strategies : List (String × LogoCrawler.Strategy)) (s : String),
      LogoCrawler.firstStrategyLogo parse url LogoCrawler.mainFinders strategies = some s →
      ∃ t, s = "data:image/svg+xml;base64," ++ t := by
  intro strategies
  induction strategies with
  | nil => intro s h; simp [LogoCrawler.firstStrategyLogo] at h
  | cons p rest ih =>
    intro s h
    unfold LogoCrawler.firstStrategyLogo at h
    split at h
    · rename_i s' hs'
      injection h with h1
      obtain ⟨t, ht⟩ := strategyResult_mainFinders_shape parse url p s' hs'
      exact ⟨t, by rw [← h1, ht]⟩
    · exact ih s h

theorem glws_mainFinders_shape (parse : String → Doc) (url : String)
    (strategies : List (String × LogoCrawler.Strategy)) :
    LogoCrawler.get_logo_with_strategies parse url strategies LogoCrawler.mainFinders =
      "request_failed" ∨
    ∃ t, LogoCrawler.get_logo_with_strategies parse url strategies LogoCrawler.mainFinders =
      "data:image/svg+xml;base64," ++ t := by
  have heq : LogoCrawler.get_logo_with_strategies parse url strategies LogoCrawler.mainFinders =
      (LogoCrawler.firstStrategyLogo parse url LogoCrawler.mainFinders strategies).getD
        "request_failed" :=
    strategiesLoop_eq_firstStrategyLogo parse url LogoCrawler.mainFinders strategies none
      (Or.inl rfl)
  cases hfl : LogoCrawler.firstStrategyLogo parse url LogoCrawler.mainFinders strategies with
  | none =>
    left
    rw [heq, hfl]
    rfl
  | some s =>
    right
    obtain ⟨t, ht⟩ := firstStrategyLogo_mainFinders_shape parse url strategies s hfl
    refine ⟨t, ?_⟩
    rw [heq, hfl, ht]
    rfl

theorem domainLoop_mainFinders_shape (parse : String → Doc)
    (strategies : List (String × LogoCrawler.Strategy)) :
    ∀ urls : List String,
      LogoCrawler.domainLoop parse strategies LogoCrawler.mainFinders urls =
        "logo_not_found" ∨
      ∃ t, LogoCrawler.domainLoop parse strategies LogoCrawler.mainFinders urls =
        "data:image/svg+xml;base64," ++ t := by
  intro urls
  induction urls with
  | nil => exact Or.inl rfl
  | cons u rest ih =>
    unfold LogoCrawler.domainLoop
    rcases glws_mainFinders_shape parse u strategies with h | ⟨t, h⟩
    · rw [h]
      simpa using ih
    · rw [h]
      have e1 : (("data:image/svg+xml;base64," ++ t) == "") = false :=
        beq_eq_false_iff_ne.mpr (dataUrl_ne t).1
      have e2 : (("data:image/svg+xml;base64," ++ t) == "logo_not_found") = false :=
        beq_eq_false_iff_ne.mpr (dataUrl_ne t).2.1
      have e3 : (("data:image/svg+xml;base64," ++ t) == "request_failed") = false :=
        beq_eq_false_iff_ne.mpr (dataUrl_ne t).2.2
      simp only [bne, e1, e2, e3, Bool.not_false, Bool.or_self, Bool.or_false,
        Bool.and_self, if_true]
      exact Or.inr ⟨t, rfl⟩

/-- C3: with the finder configuration of `logo_crawler.main` and any behaviour
of the fetch strategies (including internally raising ones — their exceptions
are absorbed), per-domain resolution is a total function returning exactly one
string, and that string is either an inline-SVG `data:` URL or the sentinel
`logo_not_found` — in particular always one of the claim's four allowed
outcomes, and never an escaping exception. -/
theorem c3_total_outcomes :
    ∀ (parse : String → Doc) (domain : String)
      (strategies : List (String × LogoCrawler.Strategy)),
      LogoCrawler.get_logo_for_domain parse domain strategies LogoCrawler.mainFinders =
        "logo_not_found" ∨
      ∃ t, LogoCrawler.get_logo_for_domain parse domain strategies LogoCrawler.mainFinders =
        "data:image/svg+xml;base64," ++ t :=
  fun parse d s =>
    domainLoop_mainFinders_shape parse s (LogoCrawler.candidate_urls (LogoCrawler.pyStrip d))

/-! ### Lemmas for absolutization idempotence (C8) -/

theorem takeWhile_append_all {p : Char → Bool} {A : List Char} (B : List Char)
    (h : ∀ x ∈ A, p x = true) :
    (A ++ B).takeWhile p = A ++ B.takeWhile p := by
  induction A with
  | nil => rfl
  | cons a A ih =>
    have ha := h a (List.mem_cons_self a A)
    simp only [List.cons_append, List.takeWhile_cons, ha, if_true]
    rw [ih fun x hx => h x (List.mem_cons_of_mem a hx)]

theorem splitAtColon_sub {l pre post : List Char} (h : splitAtColon l = some (pre, post)) :
    ∀ x, x ∈ pre ∨ x ∈ post → x ∈ l := by
  induction l generalizing pre post with
  | nil => simp [splitAtColon] at h
  | cons c rest ih =>
    unfold splitAtColon at h
    by_cases hc : c = ':'
    · rw [if_pos hc] at h
      simp only [Option.some.injEq, Prod.mk.injEq] at h
      obtain ⟨h1, h2⟩ := h
      subst h1; subst h2
      intro x hx
      rcases hx with hx | hx
      · simp at hx
      · exact List.mem_cons_of_mem c hx
    · rw [if_neg hc] at h
      cases hrec : splitAtColon rest with
      | none => rw [hrec] at h; simp at h
      | some pq =>
        rw [hrec] at h
        simp only [Option.map_some', Option.some.injEq, Prod.mk.injEq] at h
        obtain ⟨h1, h2⟩ := h
        intro x hx
        rcases hx with hx | hx
        · rw [← h1] at hx
          rcases List.mem_cons.mp hx with hx | hx
          · exact hx ▸ List.mem_cons_self c rest
          · exact List.mem_cons_of_mem c (ih hrec x (Or.inl hx))
        · rw [← h2] at hx
          exact List.mem_cons_of_mem c (ih hrec x (Or.inr hx))

theorem splitScheme_snd_sub (l : List Char) : ∀ x ∈ (splitScheme l).2, x ∈ l := by
  unfold splitScheme
  cases h : splitAtColon l with
  | none => simp
  | some pq =>
    obtain ⟨pre, post⟩ := pq
    dsimp only
    by_cases hcond : pre ≠ [] ∧ (pre.headD ' ').isAlpha ∧
        pre.all (fun c => schemeChars.contains c)
    · rw [if_pos hcond]
      intro x hx
      exact splitAtColon_sub h x (Or.inr hx)
    · rw [if_neg hcond]
      simp

theorem stripUnsafe_good {l : List Char} : ∀ x ∈ stripUnsafe l, goodChar x = true :=
  fun _ hx => List.of_mem_filter hx

theorem stripUnsafe_of_all_good {l : List Char} (h : ∀ x ∈ l, goodChar x = true) :
    stripUnsafe l = l :=
  List.filter_eq_self.mpr h

theorem urlsplitE_netloc_facts {u d : List Char} {s : SplitResult}
    (h : urlsplitE u d = .ok s) :
    (∀ c ∈ s.netloc, goodChar c = true) ∧ (∀ c ∈ s.netloc, netlocStop c = false) ∧
      bracketBad s.netloc = false := by
  unfold urlsplitE at h
  dsimp only at h
  by_cases hpp : (splitScheme (stripUnsafe u)).2.take 2 = ['/', '/']
  · rw [if_pos hpp] at h
    by_cases hbr : bracketBad (splitNetloc ((splitScheme (stripUnsafe u)).2.drop 2)).1 = true
    · rw [if_pos hbr] at h
      simp at h
    · rw [if_neg hbr] at h
      injection h with h'
      have hnet : s.netloc = (splitNetloc ((splitScheme (stripUnsafe u)).2.drop 2)).1 := by
        rw [← h']
      unfold splitNetloc at hnet
      dsimp only at hnet
      refine ⟨?_, ?_, ?_⟩
      · intro c hc
        rw [hnet] at hc
        have h1 : c ∈ (splitScheme (stripUnsafe u)).2.drop 2 :=
          (List.takeWhile_sublist _).subset hc
        have h2 : c ∈ (splitScheme (stripUnsafe u)).2 := List.drop_subset _ _ h1
        exact stripUnsafe_good c (splitScheme_snd_sub _ c h2)
      · intro c hc
        rw [hnet] at hc
        have := List.mem_takeWhile_imp hc
        simpa using this
      · rw [hnet]
        unfold splitNetloc at hbr
        dsimp only at hbr
        exact Bool.eq_false_iff.mpr hbr
  · rw [if_neg hpp] at h
    by_cases hbr : bracketBad ([], (splitScheme (stripUnsafe u)).2).1 = true
    · rw [if_pos hbr] at h
      simp at h
    · rw [if_neg hbr] at h
      injection h with h'
      have hnet : s.netloc = [] := by
        rw [← h']
      refine ⟨?_, ?_, ?_⟩
      · intro c hc; rw [hnet] at hc; simp at hc
      · intro c hc; rw [hnet] at hc; simp at hc
      · rw [hnet]; rfl

theorem urlparseE_netloc_facts {u d : List Char} {p : ParseResult}
    (h : urlparseE u d = .ok p) :
    (∀ c ∈ p.netloc, goodChar c = true) ∧ (∀ c ∈ p.netloc, netlocStop c = false) ∧
      bracketBad p.netloc = false := by
  unfold urlparseE at h
  cases hs : urlsplitE u d with
  | error e => rw [hs] at h; simp [Except.map] at h
  | ok s =>
    rw [hs] at h
    simp only [Except.map] at h
    injection h with h'
    have hf := urlsplitE_netloc_facts hs
    have hnet : p.netloc = s.netloc := by
      rw [← h']
      split <;> rfl
    rw [hnet]
    exact hf

theorem urlsplitE_ok_of_default {u d : List Char} {s : SplitResult}
    (h : urlsplitE u [] = .ok s) :
    urlsplitE u d = .ok ⟨(splitScheme (stripUnsafe u)).1.getD (stripUnsafe d),
      s.netloc, s.path, s.query, s.fragment⟩ := by
  unfold urlsplitE at h ⊢
  dsimp only at h ⊢
  by_cases hpp : (splitScheme (stripUnsafe u)).2.take 2 = ['/', '/']
  · rw [if_pos hpp] at h ⊢
    by_cases hbr : bracketBad (splitNetloc ((splitScheme (stripUnsafe u)).2.drop 2)).1 = true
    · rw [if_pos hbr] at h
      simp at h
    · rw [if_neg hbr] at h ⊢
      injection h with h'
      rw [← h']
  · rw [if_neg hpp] at h ⊢
    by_cases hbr : bracketBad ([], (splitScheme (stripUnsafe u)).2).1 = true
    · rw [if_pos hbr] at h
      simp at h
    · rw [if_neg hbr] at h ⊢
      injection h with h'
      rw [← h']

theorem urlparseE_netloc_of_default {u d : List Char} {pu : ParseResult}
    (h : urlparseE u [] = .ok pu) :
    ∃ pu', urlparseE u d = .ok pu' ∧ pu'.netloc = pu.netloc := by
  unfold urlparseE at h ⊢
  cases hs : urlsplitE u [] with
  | error e => rw [hs] at h; simp [Except.map] at h
  | ok s =>
    rw [hs] at h
    rw [urlsplitE_ok_of_default hs]
    simp only [Except.map] at h ⊢
    injection h with h'
    refine ⟨_, rfl, ?_⟩
    rw [← h']
    split <;> split <;> rfl

theorem splitAtColon_https (rest : List Char) :
    splitAtColon ("https:".data ++ rest) = some ("https".data, rest) := rfl

/-- Rebuilding a URL with scheme `https` and a non-empty netloc yields
`https://` followed by the netloc and a tail starting with `/`, `?` or `#`
(or nothing). -/
theorem unparse_https_shape (H path params query fragment : List Char) (hH : H ≠ []) :
    ∃ tail, urlunparseL ⟨"https".data, H, path, params, query, fragment⟩ =
      "https:".data ++ '/' :: '/' :: (H ++ tail) ∧ tailOK tail := by
  unfold urlunparseL urlunsplitL
  dsimp only
  generalize (if params ≠ [] then path ++ ';' :: params else path) = p'
  rw [if_pos (Or.inl hH)]
  rw [if_pos (by decide : ("https".data : List Char) ≠ [])]
  have hu' : (if p' ≠ [] ∧ p'.headD ' ' ≠ '/' then '/' :: p' else p') = [] ∨
      ∃ rest, (if p' ≠ [] ∧ p'.headD ' ' ≠ '/' then '/' :: p' else p') = '/' :: rest := by
    by_cases h1 : p' ≠ [] ∧ p'.headD ' ' ≠ '/'
    · right
      exact ⟨p', by rw [if_pos h1]⟩
    · rw [if_neg h1]
      push_neg at h1
      by_cases h2 : p' = []
      · exact Or.inl h2
      · right
        cases p' with
        | nil => exact absurd rfl h2
        | cons c cs =>
          have hc : c = '/' := by simpa using h1 (by simp)
          exact ⟨cs, by rw [hc]⟩
  generalize hup : (if p' ≠ [] ∧ p'.headD ' ' ≠ '/' then '/' :: p' else p') = u' at hu'
  by_cases hq : query ≠ []
  · rw [if_pos hq]
    by_cases hf : fragment ≠ []
    · rw [if_pos hf]
      refine ⟨u' ++ '?' :: query ++ '#' :: fragment, by simp, ?_⟩
      rcases hu' with hu | ⟨rest, hu⟩
      · subst hu
        exact Or.inr ⟨'?', query ++ '#' :: fragment, by simp, by decide⟩
      · subst hu
        exact Or.inr ⟨'/', rest ++ '?' :: query ++ '#' :: fragment, by simp, by decide⟩
    · rw [if_neg hf]
      refine ⟨u' ++ '?' :: query, by simp, ?_⟩
      rcases hu' with hu | ⟨rest, hu⟩
      · subst hu
        exact Or.inr ⟨'?', query, by simp, by decide⟩
      · subst hu
        exact Or.inr ⟨'/', rest ++ '?' :: query, by simp, by decide⟩
  · rw [if_neg hq]
    by_cases hf : fragment ≠ []
    · rw [if_pos hf]
      refine ⟨u' ++ '#' :: fragment, by simp, ?_⟩
      rcases hu' with hu | ⟨rest, hu⟩
      · subst hu
        exact Or.inr ⟨'#', fragment, by simp, by decide⟩
      · subst hu
        exact Or.inr ⟨'/', rest ++ '#' :: fragment, by simp, by decide⟩
    · rw [if_neg hf]
      refine ⟨u', by simp, ?_⟩
      rcases hu' with hu | ⟨rest, hu⟩
      · exact Or.inl hu
      · exact Or.inr ⟨'/', rest, hu, by decide⟩

theorem netloc_ite {c : Prop} [Decidable c] {a b : ParseResult} {X : List Char}
    (ha : a.netloc = X) (hb : b.netloc = X) : (if c then a else b).netloc = X := by
  split
  · exact ha
  · exact hb

/-- Parsing `https://H` followed by a well-shaped tail recovers the netloc `H`. -/
theorem parse_unsplit_netloc (H tail : List Char)
    (hgood : ∀ c ∈ H, goodChar c = true)
    (hstop : ∀ c ∈ H, netlocStop c = false)
    (hbr : bracketBad H = false)
    (htail : tailOK tail) :
    ∃ p, urlparseE ("https:".data ++ '/' :: '/' :: (H ++ tail)) [] = .ok p ∧
      p.netloc = H := by
  have hstrip : stripUnsafe ("https:".data ++ '/' :: '/' :: (H ++ tail)) =
      "https:".data ++ '/' :: '/' :: (H ++ stripUnsafe tail) := by
    unfold stripUnsafe
    rw [show ("https:".data ++ '/' :: '/' :: (H ++ tail) : List Char) =
        "https://".data ++ H ++ tail from rfl]
    rw [show ("https:".data ++ '/' :: '/' :: (H ++ List.filter goodChar tail) : List Char) =
        "https://".data ++ H ++ List.filter goodChar tail from rfl]
    rw [List.filter_append, List.filter_append]
    rw [show List.filter goodChar "https://".data = "https://".data from rfl]
    rw [List.filter_eq_self.mpr hgood]
  have htail' : stripUnsafe tail = [] ∨
      ∃ c rest, stripUnsafe tail = c :: rest ∧ netlocStop c = true := by
    rcases htail with h | ⟨c, rest, hc, hcs⟩
    · left
      rw [h]
      rfl
    · right
      have hc3 : (c = '/' ∨ c = '?') ∨ c = '#' := by
        unfold netlocStop at hcs
        simpa only [Bool.or_eq_true, beq_iff_eq] using hcs
      have hcg : goodChar c = true := by
        rcases hc3 with (h | h) | h <;> subst h <;> rfl
      rw [hc]
      unfold stripUnsafe
      rw [List.filter_cons, hcg]
      refine ⟨c, List.filter goodChar rest, ?_, hcs⟩
      simp
  have htw : (H ++ stripUnsafe tail).takeWhile (fun c => !netlocStop c) = H := by
    rw [takeWhile_append_all (stripUnsafe tail)
      (fun x hx => by rw [hstop x hx]; rfl)]
    rcases htail' with h | ⟨c, rest, hc, hcs⟩
    · rw [h]
      simp
    · rw [hc]
      simp [List.takeWhile_cons, hcs]
  unfold urlparseE urlsplitE
  dsimp only
  rw [hstrip]
  rw [show splitScheme ("https:".data ++ '/' :: '/' :: (H ++ stripUnsafe tail)) =
      (some ("https".data), '/' :: '/' :: (H ++ stripUnsafe tail)) from rfl]
  dsimp only [Option.getD]
  rw [if_pos (show (('/' :: '/' :: (H ++ stripUnsafe tail) : List Char)).take 2 =
      ['/', '/'] from rfl)]
  unfold splitNetloc
  dsimp only
  rw [show (('/' :: '/' :: (H ++ stripUnsafe tail) : List Char)).drop 2 =
      H ++ stripUnsafe tail from rfl]
  rw [htw]
  rw [if_neg (by simp [hbr])]
  simp only [Except.map]
  refine ⟨_, rfl, ?_⟩
  dsimp only
  exact netloc_ite rfl rfl

/-- `unparse_https_shape` restated for a whole `ParseResult`. -/
theorem unparse_https_shape' (pp : ParseResult) (hs : pp.scheme = "https".data)
    (hH : pp.netloc ≠ []) :
    ∃ tail, urlunparseL pp = "https:".data ++ '/' :: '/' :: (pp.netloc ++ tail) ∧
      tailOK tail := by
  obtain ⟨sc, nl, pa, pr, q, f⟩ := pp
  dsimp only at hs hH ⊢
  subst hs
  exact unparse_https_shape nl pa pr q f hH

/-- Under an absolute `https` base, `urljoin` either returns the reference
unchanged or rebuilds a URL on the base's authority. -/
theorem urljoinE_shape {base url : List Char} {b pu : ParseResult}
    (hbase : base ≠ [])
    (hurl : url ≠ [])
    (hb : urlparseE base [] = .ok b)
    (hbs : b.scheme = "https".data)
    (hpu : urlparseE url [] = .ok pu)
    (hnet : pu.netloc = []) :
    urljoinE base url = .ok url ∨
    ∃ pp : ParseResult, urljoinE base url = .ok (urlunparseL pp) ∧
      pp.scheme = "https".data ∧ pp.netloc = b.netloc := by
  unfold urljoinE
  rw [if_neg hbase, if_neg hurl]
  rw [hb]
  dsimp only
  obtain ⟨pu', hpu', hnet'⟩ := urlparseE_netloc_of_default (d := b.scheme) hpu
  rw [hpu']
  dsimp only
  by_cases h1 : pu'.scheme ≠ b.scheme ∨ pu'.scheme ∉ usesRelative
  · rw [if_pos h1]
    exact Or.inl rfl
  · rw [if_neg h1]
    push_neg at h1
    obtain ⟨hsch, _⟩ := h1
    have hnet'' : pu'.netloc = [] := by rw [hnet', hnet]
    rw [if_neg (fun hcon => hcon.2 hnet'')]
    have hin : pu'.scheme ∈ usesNetloc := by
      rw [hsch, hbs]
      decide
    rw [if_pos hin]
    by_cases h3 : pu'.path = [] ∧ pu'.params = []
    · rw [if_pos h3]
      refine Or.inr ⟨_, rfl, ?_, rfl⟩
      show pu'.scheme = "https".data
      rw [hsch, hbs]
    · rw [if_neg h3]
      refine Or.inr ⟨_, rfl, ?_, rfl⟩
      show pu'.scheme = "https".data
      rw [hsch, hbs]

/-- Bridge between the `String`-level wrapper and the char-list core. -/
theorem mapMk_ok {e : Except String (List Char)} {r : String}
    (h : e.map String.mk = .ok r) : e = .ok r.data := by
  cases e with
  | error _ => simp [Except.map] at h
  | ok l =>
    simp only [Except.map] at h
    injection h with h'
    rw [← h']

/-- C8 amended: absolutization is idempotent for every base URL that parses
with scheme `https` and a non-empty network location (as every candidate and
resolved URL in this pipeline does), and every logo URL that is not a
degenerate protocol-relative string with an empty authority (such as `//` or
`///x`, on which a second application resolves the output against the base
and changes it). -/
theorem c8_idempotence_amended :
    ∀ (base url : String) (b : ParseResult),
      urlparseE base.data [] = .ok b →
      b.scheme = "https".data →
      b.netloc ≠ [] →
      (url.data.take 2 = ['/', '/'] →
        ∃ p, urlparseE ("https:" ++ url).data [] = .ok p ∧ p.netloc ≠ []) →
      ∀ r, Finders.make_absolute_url base url = .ok r →
        Finders.make_absolute_url base r = .ok r := by
  intro base url b hb hbs hbn hpp r hr
  have hr' : mauFindersL base.data url.data = .ok r.data := mapMk_ok hr
  suffices hs : mauFindersL base.data r.data = .ok r.data by
    show (mauFindersL base.data r.data).map String.mk = .ok r
    rw [hs]
    rfl
  unfold mauFindersL at hr'
  by_cases he : url.data = []
  · rw [if_pos he] at hr'
    injection hr' with h'
    unfold mauFindersL
    rw [← h', he]
    rfl
  · rw [if_neg he] at hr'
    by_cases hp2 : url.data.take 2 = ['/', '/']
    · rw [if_pos hp2] at hr'
      injection hr' with h'
      obtain ⟨p, hp, hpn⟩ := hpp hp2
      have hrd : r.data = "https:".data ++ url.data := h'.symm
      rw [show ("https:" ++ url).data = "https:".data ++ url.data from rfl] at hp
      unfold mauFindersL
      rw [hrd]
      have hne1 : ("https:".data ++ url.data : List Char) ≠ [] := by
        intro hcon
        exact List.cons_ne_nil _ _ hcon
      rw [if_neg hne1]
      rw [show ("https:".data ++ url.data : List Char).take 2 = ['h', 't'] from rfl]
      rw [if_neg (by decide : ¬((['h', 't'] : List Char) = ['/', '/']))]
      rw [hp]
      dsimp only
      rw [if_pos hpn]
    · rw [if_neg hp2] at hr'
      cases hup : urlparseE url.data [] with
      | error e =>
        rw [hup] at hr'
        simp at hr'
      | ok pu =>
        rw [hup] at hr'
        dsimp only at hr'
        by_cases hn : pu.netloc ≠ []
        · rw [if_pos hn] at hr'
          injection hr' with h'
          unfold mauFindersL
          rw [← h', if_neg he, if_neg hp2, hup]
          dsimp only
          rw [if_pos hn]
        · rw [if_neg hn] at hr'
          have hbne : base.data ≠ [] := by
            intro h0
            rw [h0] at hb
            have he2 : urlparseE ([] : List Char) [] = .ok ⟨[], [], [], [], [], []⟩ := rfl
            rw [he2] at hb
            injection hb with h2
            apply hbn
            rw [← h2]
          rcases urljoinE_shape hbne he hb hbs hup (not_not.mp hn)
              with hsh | ⟨pp, hsh, hppsch, hppnet⟩
          · rw [hsh] at hr'
            injection hr' with h'
            unfold mauFindersL
            rw [← h', if_neg he, if_neg hp2, hup]
            dsimp only
            rw [if_neg hn, hsh, h']
          · rw [hsh] at hr'
            injection hr' with h'
            obtain ⟨tail, hun, htok⟩ :=
              unparse_https_shape' pp hppsch (by rw [hppnet]; exact hbn)
            rw [hppnet] at hun
            have hrd : r.data = "https:".data ++ '/' :: '/' :: (b.netloc ++ tail) := by
              rw [← h', hun]
            obtain ⟨hg, hstp, hbrk⟩ := urlparseE_netloc_facts hb
            obtain ⟨p2, hp2ok, hp2net⟩ := parse_unsplit_netloc b.netloc tail hg hstp hbrk htok
            unfold mauFindersL
            rw [hrd]
            have hne1 : ("https:".data ++ '/' :: '/' :: (b.netloc ++ tail) : List Char) ≠ [] := by
              intro hcon
              exact List.cons_ne_nil _ _ hcon
            rw [if_neg hne1]
            rw [show ("https:".data ++ '/' :: '/' :: (b.netloc ++ tail) : List Char).take 2 =
                ['h', 't'] from rfl]
            rw [if_neg (by decide : ¬((['h', 't'] : List Char) = ['/', '/']))]
            rw [hp2ok]
            dsimp only
            rw [if_pos (show p2.netloc ≠ [] from by rw [hp2net]; exact hbn)]

theorem c8_idempotence_amended_witness :
    urlparseE ("https://x.com" : String).data [] =
      .ok ⟨"https".data, "x.com".data, [], [], [], []⟩ ∧
    Finders.make_absolute_url "https://x.com" "img/logo.png" =
      .ok "https://x.com/img/logo.png" ∧
    Finders.make_absolute_url "https://x.com" "https://x.com/img/logo.png" =
      .ok "https://x.com/img/logo.png" :=
  ⟨by decide, by decide,
   c8_idempotence_amended "https://x.com" "img/logo.png"
     ⟨"https".data, "x.com".data, [], [], [], []⟩
     (by decide) rfl (by decide) (fun h => absurd h (by decide))
     "https://x.com/img/logo.png" (by decide)⟩
